import Mathlib

/-!
Verification of the movie-generator coordination core.

The repository ships the `MetricsDashboard` React component
(`src/unnamed/part_000`), the API reference (`src/api_reference.md`),
an implementation plan and a declarative pipeline configuration
(`src/unnamed/part_001`, `src/unnamed/part_002`).  The dashboard logic
is embedded directly from its source; the orchestrator, scheduler,
registry and monitor bodies are not in the repository, so those
components are modelled from the specification, as marked on each
definition.
-/

namespace MovieGen

/-! ## Metrics dashboard (embedded from `src/unnamed/part_000`) -/

/-- One `SystemMetrics` reading as consumed by `MetricsDashboard`:
the component reads `timestamp`, `cpu.usage`, `memory.usage_percent`,
`gpu.usage` and `storage.usage`. -/
structure SystemMetrics where
  timestamp : Nat
  cpu_usage : Nat
  memory_usage_percent : Nat
  gpu_usage : Nat
  storage_usage : Nat
deriving DecidableEq, Repr

/-- `setMetrics(prev => [...prev, data.data].slice(-60))`: append one
sample and keep the last 60 readings.  JavaScript `slice(-60)` keeps the
whole array when it is shorter than 60, which matches `List.drop` with
truncated subtraction. -/
def appendMetric (prev : List SystemMetrics) (m : SystemMetrics) : List SystemMetrics :=
  let l := prev ++ [m]
  l.drop (l.length - 60)

/-- The metric series held in the dashboard state after a sequence of
appended samples, starting from the initial `useState` value `[]`. -/
def series (ms : List SystemMetrics) : List SystemMetrics :=
  ms.foldl appendMetric []

/-- A parsed websocket message: `JSON.parse(event.data)` yields an
object whose `type` field is inspected and whose `data` field carries
the sample. -/
structure WsMessage where
  type : String
  data : SystemMetrics
deriving DecidableEq, Repr

/-- The `ws.onmessage` handler of `MetricsDashboard`: only a message
with `data.type === 'metrics'` appends to the series. -/
def onMessage (metrics : List SystemMetrics) (msg : WsMessage) : List SystemMetrics :=
  if msg.type = "metrics" then appendMetric metrics msg.data else metrics

/-- The Current Usage summary card: rendered only under the guard
`metrics.length > 0`, and it reads `metrics[metrics.length - 1]`.
The element access is kept as a fallible `get?` so that an
out-of-bounds index would surface as `none` in the guarded branch. -/
def currentUsageSummary (metrics : List SystemMetrics) : Option (Nat × Nat × Nat × Nat) :=
  if 0 < metrics.length then
    match metrics.get? (metrics.length - 1) with
    | some m => some (m.cpu_usage, m.memory_usage_percent, m.gpu_usage, m.storage_usage)
    | none => none
  else
    none

lemma appendMetric_history (hist : List SystemMetrics) (m : SystemMetrics) :
    appendMetric (hist.drop (hist.length - 60)) m =
      (hist ++ [m]).drop ((hist ++ [m]).length - 60) := by
  unfold appendMetric
  dsimp only
  rcases Nat.lt_or_ge hist.length 60 with hlt | hge
  · simp [Nat.sub_eq_zero_of_le (Nat.le_of_lt hlt), Nat.sub_eq_zero_of_le hlt]
  · have hdroplen : (hist.drop (hist.length - 60)).length = 60 := by
      simp [List.length_drop]
      omega
    have hlen : (hist.drop (hist.length - 60) ++ [m]).length - 60 = 1 := by
      simp [hdroplen]
    rw [hlen]
    have h1 : (hist.drop (hist.length - 60) ++ [m]).drop 1 =
        (hist.drop (hist.length - 60)).drop 1 ++ [m] := by
      exact List.drop_append_of_le_length (by omega)
    rw [h1, List.drop_drop]
    have h2 : (hist ++ [m]).length - 60 = hist.length - 59 := by
      simp only [List.length_append, List.length_cons, List.length_nil]
      omega
    rw [h2]
    have h3 : (hist ++ [m]).drop (hist.length - 59) =
        hist.drop (hist.length - 59) ++ [m] := by
      exact List.drop_append_of_le_length (by omega)
    rw [h3]
    congr 1
    congr 1
    omega

lemma series_eq_lastN_aux (ms hist : List SystemMetrics) :
    ms.foldl appendMetric (hist.drop (hist.length - 60)) =
      (hist ++ ms).drop ((hist ++ ms).length - 60) := by
  induction ms generalizing hist with
  | nil => simp
  | cons m ms ih =>
    rw [List.foldl_cons, appendMetric_history hist m, ih (hist ++ [m])]
    simp

lemma series_eq_lastN (ms : List SystemMetrics) :
    series ms = ms.drop (ms.length - 60) := by
  have h := series_eq_lastN_aux ms []
  simpa [series] using h

/-! ## Claim theorems for the dashboard -/

/-- C6: after every sequence of appended samples the live metric series
has length at most 60 and equals exactly the most recent samples of the
history, in arrival order (the suffix of the history of length
`min 60 (length)`). -/
theorem C6_series_bounded_last60 (ms : List SystemMetrics) :
    (series ms).length ≤ 60 ∧ series ms = ms.drop (ms.length - 60) := by
  refine ⟨?_, series_eq_lastN ms⟩
  rw [series_eq_lastN ms]
  simp [List.length_drop]
  omega

/-- C9: a websocket message whose `type` is not `'metrics'` leaves the
stored series completely unchanged, and a `'metrics'` message appends
its sample via the bounded append. -/
theorem C9_non_metrics_frame (metrics : List SystemMetrics) (msg : WsMessage)
    (h : msg.type ≠ "metrics") :
    onMessage metrics msg = metrics ∧
      ∀ d : SystemMetrics, onMessage metrics ⟨"metrics", d⟩ = appendMetric metrics d := by
  constructor
  · simp [onMessage, h]
  · intro d
    simp [onMessage]

/-- Witness for C9 at a concrete non-`'metrics'` message. -/
theorem C9_non_metrics_frame_witness :
    onMessage [] ⟨"status", ⟨0, 1, 2, 3, 4⟩⟩ = [] :=
  (C9_non_metrics_frame [] ⟨"status", ⟨0, 1, 2, 3, 4⟩⟩ (by decide)).1

/-- C10: the Current Usage summary accesses the last element only under
the non-emptiness guard, so the guarded access is always in bounds
(never `none` inside the guard) and the empty series renders nothing. -/
theorem C10_summary_in_bounds (metrics : List SystemMetrics) :
    (0 < metrics.length → (currentUsageSummary metrics).isSome) ∧
      currentUsageSummary [] = none := by
  constructor
  · intro h
    unfold currentUsageSummary
    rw [if_pos h]
    have hb : metrics.length - 1 < metrics.length := by omega
    cases hg : metrics.get? (metrics.length - 1) with
    | none =>
      have hsome := List.get?_eq_get hb
      rw [hsome] at hg
      exact absurd hg (by simp)
    | some m => simp
  · rfl

/-- Witness for C10 at a concrete non-empty series. -/
theorem C10_summary_in_bounds_witness :
    (currentUsageSummary [⟨0, 10, 20, 30, 40⟩]).isSome :=
  (C10_summary_in_bounds [⟨0, 10, 20, 30, 40⟩]).1 (by decide)

/-! ## SystemMonitor alert evaluation (modelled from the spec) -/

/-- Modelled from the spec: the SystemMonitor implementation is not in
`src/`; only `register_alert_callback` is declared in
`src/api_reference.md`.  Per the spec, threshold evaluation is
edge-triggered: the callback fires when the current sample is at or
above the threshold while the previously recorded state was below.
`above` is the per-metric latch recording whether the last sample
breached. -/
def alertFires (above : Bool) (thr v : Nat) : Bool :=
  decide (thr ≤ v) && !above

/-- Modelled from the spec: processing a sequence of samples against a
fixed threshold, starting from latch state `above`; returns, for each
sample in order, whether the alert callback fired on that sample. -/
def alertRun (thr : Nat) (above : Bool) : List Nat → List Bool
  | [] => []
  | v :: vs => alertFires above thr v :: alertRun thr (decide (thr ≤ v)) vs

lemma alertRun_get? (thr : Nat) :
    ∀ (samples : List Nat) (above : Bool) (i : Nat),
      (alertRun thr above samples).get? i = some true ↔
        ((∃ v, samples.get? i = some v ∧ thr ≤ v) ∧
          (match i with
           | 0 => above = false
           | j + 1 => ∃ u, samples.get? j = some u ∧ u < thr)) := by
  intro samples
  induction samples with
  | nil =>
    intro above i
    simp [alertRun]
  | cons v vs ih =>
    intro above i
    cases i with
    | zero =>
      cases above <;> by_cases hv : thr ≤ v <;>
        simp [alertRun, alertFires, hv]
    | succ j =>
      have hIH := ih (decide (thr ≤ v)) j
      simp only [alertRun, List.get?_cons_succ]
      rw [hIH]
      cases j with
      | zero =>
        simp [Nat.lt_iff_add_one_le, decide_eq_false_iff_not, Nat.not_le]
      | succ k =>
        simp

/-- C5: over any sample sequence with a fixed threshold, the alert
callback fires at sample `i` exactly when sample `i` is at or above the
threshold and either `i` is the first sample or the previous sample was
strictly below the threshold — so it fires once per breach transition,
never while a breach is sustained, and again only after the metric has
returned below the threshold. -/
theorem C5_edge_triggered_alerts (thr : Nat) (samples : List Nat) (i : Nat) :
    (alertRun thr false samples).get? i = some true ↔
      ((∃ v, samples.get? i = some v ∧ thr ≤ v) ∧
        (i = 0 ∨ ∃ u, samples.get? (i - 1) = some u ∧ u < thr)) := by
  rw [alertRun_get? thr samples false i]
  cases i with
  | zero => simp
  | succ j => simp

/-! ## Pipeline stage graphs and start_project (modelled from the spec) -/

/-- A pipeline stage as declared in the configuration
(`src/unnamed/part_002`): name, agent role and timeout; the set of
prerequisite stage names comes from the spec's stage-dependency graph. -/
structure Stage where
  name : String
  role : String
  timeout : Nat
  deps : List String
deriving DecidableEq, Repr

/-- Direct dependency edge of a stage graph: `stageDep stages d n` holds
when some stage named `n` lists `d` among its prerequisites. -/
def stageDep (stages : List Stage) (d n : String) : Prop :=
  ∃ s, s ∈ stages ∧ s.name = n ∧ d ∈ s.deps

/-- A stage graph contains a cycle when some name reaches itself through
one or more dependency edges. -/
def hasCycle (stages : List Stage) : Prop :=
  ∃ a, Relation.TransGen (stageDep stages) a a

/-- Stages not yet marked done whose prerequisites are all done. -/
def readySet (done : List String) (stages : List Stage) : List Stage :=
  stages.filter (fun s => !done.contains s.name && s.deps.all done.contains)

/-- Modelled from the spec: the acyclicity validation of
`start_project` (the orchestrator body is not in `src/`), as Kahn-style
elimination — repeatedly mark ready stages done; the graph passes when
every stage becomes done. -/
def kahnAcyclic : Nat → List String → List Stage → Bool
  | 0, done, stages => stages.all (fun s => done.contains s.name)
  | fuel + 1, done, stages =>
    if (readySet done stages).isEmpty then stages.all (fun s => done.contains s.name)
    else kahnAcyclic fuel (done ++ (readySet done stages).map Stage.name) stages

/-- Acyclicity of the combined stage graph, with enough fuel to process
every stage. -/
def isAcyclic (stages : List Stage) : Bool :=
  kahnAcyclic (stages.length + 1) [] stages

/-- Project lifecycle states (spec §3). -/
inductive ProjectStatus
  | initializing
  | running
  | paused
  | completed
  | failed
  | cancelled
deriving DecidableEq, Repr

/-- Task lifecycle states (spec §3). -/
inductive TaskStatus
  | pending
  | scheduled
  | runningT
  | succeeded
  | failedT
  | timedOut
  | cancelled
deriving DecidableEq, Repr

/-- A Task emitted for one stage of one project. -/
structure TaskRec where
  stage : String
  role : String
  status : TaskStatus
deriving DecidableEq, Repr

/-- Modelled from the spec: `start_project` validates the combined
stage graph (rejecting with ValidationError a cyclic graph or an
undefined role) before any Task object is created; on success it emits
one Task per initially ready stage and sets the project Running. -/
def start_project (stages : List Stage) (roles : List String) :
    Except String (ProjectStatus × List TaskRec) :=
  if isAcyclic stages then
    if stages.all (fun s => roles.contains s.role) then
      .ok (.running, (readySet [] stages).map (fun s => ⟨s.name, s.role, .pending⟩))
    else
      .error "ValidationError: undefined role"
  else
    .error "ValidationError: cyclic stage graph"

/-- Tasks created by a `start_project` outcome. -/
def tasksCreated (r : Except String (ProjectStatus × List TaskRec)) : List TaskRec :=
  match r with
  | .error _ => []
  | .ok (_, ts) => ts

lemma stage_eq_of_name_eq {stages : List Stage}
    (hnd : (stages.map Stage.name).Nodup) {s t : Stage}
    (hs : s ∈ stages) (ht : t ∈ stages) (h : s.name = t.name) : s = t :=
  List.inj_on_of_nodup_map hnd hs ht h

lemma kahnAcyclic_sound :
    ∀ (fuel : Nat) (done : List String) (stages : List Stage),
      (stages.map Stage.name).Nodup →
      (∀ n ∈ done, Acc (stageDep stages) n) →
      kahnAcyclic fuel done stages = true →
      ∀ s ∈ stages, Acc (stageDep stages) s.name := by
  intro fuel
  induction fuel with
  | zero =>
    intro done stages _ hdone hk s hs
    have hall := List.all_eq_true.mp hk s hs
    exact hdone s.name (by simpa using hall)
  | succ fuel ih =>
    intro done stages hnd hdone hk s hs
    rw [kahnAcyclic] at hk
    by_cases hre : (readySet done stages).isEmpty
    · rw [if_pos hre] at hk
      have hall := List.all_eq_true.mp hk s hs
      exact hdone s.name (by simpa using hall)
    · rw [if_neg hre] at hk
      refine ih (done ++ (readySet done stages).map Stage.name) stages hnd ?_ hk s hs
      intro n hn
      rcases (by simpa using hn : n ∈ done ∨ n ∈ (readySet done stages).map Stage.name)
        with h1 | h2
      · exact hdone n h1
      · obtain ⟨t, ht, rfl⟩ := List.mem_map.mp h2
        obtain ⟨htStages, hcond⟩ := List.mem_filter.mp ht
        have hall : t.deps.all done.contains = true := by
          revert hcond
          cases t.deps.all done.contains <;> simp
        have hdeps : ∀ d ∈ t.deps, d ∈ done := by
          intro d hd
          have hc := List.all_eq_true.mp hall d hd
          simpa using hc
        constructor
        intro d hd
        obtain ⟨u, hu, hun, hdu⟩ := hd
        have hut : u = t := stage_eq_of_name_eq hnd hu htStages hun
        subst hut
        exact hdone d (hdeps d hdu)

lemma acc_not_transGen_self {α : Type} {r : α → α → Prop} {a : α}
    (h : Acc r a) : ¬ Relation.TransGen r a a := by
  have h' : Acc (Relation.TransGen r) a := h.transGen
  clear h
  induction h' with
  | intro x _ ih =>
    intro hxx
    exact ih x hxx hxx

lemma cycle_target_is_stage {stages : List Stage} {a : String}
    (h : Relation.TransGen (stageDep stages) a a) :
    ∃ s, s ∈ stages ∧ s.name = a := by
  cases h with
  | single h1 =>
    obtain ⟨s, hs, hn, _⟩ := h1
    exact ⟨s, hs, hn⟩
  | tail _ h2 =>
    obtain ⟨s, hs, hn, _⟩ := h2
    exact ⟨s, hs, hn⟩

lemma isAcyclic_false_of_cycle {stages : List Stage}
    (hnd : (stages.map Stage.name).Nodup) (hcyc : hasCycle stages) :
    isAcyclic stages = false := by
  obtain ⟨a, htrans⟩ := hcyc
  obtain ⟨s, hs, hname⟩ := cycle_target_is_stage htrans
  by_contra hne
  have htrue : isAcyclic stages = true := by
    cases h : isAcyclic stages with
    | false => exact absurd h hne
    | true => rfl
  have hacc := kahnAcyclic_sound (stages.length + 1) [] stages hnd
    (by intro n hn; simp at hn) htrue s hs
  rw [hname] at hacc
  exact acc_not_transGen_self hacc htrans

/-- C1: for every pipeline definition (with distinct stage names) whose
combined stage graph contains a cycle, `start_project` fails with
ValidationError and the set of created Tasks is empty — rejection
happens before any Task exists. -/
theorem C1_cycle_rejected (stages : List Stage) (roles : List String)
    (hnd : (stages.map Stage.name).Nodup) (hcyc : hasCycle stages) :
    start_project stages roles = .error "ValidationError: cyclic stage graph" ∧
      tasksCreated (start_project stages roles) = [] := by
  have h := isAcyclic_false_of_cycle hnd hcyc
  constructor
  · simp [start_project, h]
  · simp [start_project, tasksCreated, h]

/-- Witness for C1: the two-stage graph a ↔ b is cyclic, is rejected,
and creates no Task. -/
theorem C1_cycle_rejected_witness :
    start_project [⟨"a", "r", 300, ["b"]⟩, ⟨"b", "r", 300, ["a"]⟩] ["r"] =
        .error "ValidationError: cyclic stage graph" ∧
      tasksCreated
        (start_project [⟨"a", "r", 300, ["b"]⟩, ⟨"b", "r", 300, ["a"]⟩] ["r"]) = [] :=
  C1_cycle_rejected [⟨"a", "r", 300, ["b"]⟩, ⟨"b", "r", 300, ["a"]⟩] ["r"]
    (by decide)
    ⟨"a",
      Relation.TransGen.head
        ⟨⟨"b", "r", 300, ["a"]⟩, by simp, rfl, by simp⟩
        (Relation.TransGen.single
          ⟨⟨"a", "r", 300, ["b"]⟩, by simp, rfl, by simp⟩)⟩

/-! ## Resource-aware task scheduler (modelled from the spec) -/

/-- Resource requirement of one Task: `(gpu_units, cpu_units)`. -/
structure ResourceReq where
  gpu_units : Nat
  cpu_units : Nat
deriving DecidableEq, Repr

/-- Modelled from the spec: the shared ResourceBudget — total GPU/CPU
capacity and the currently allocated amounts (the TaskScheduler body is
not in `src/`; only `update_gpu_settings`/`update_cpu_settings` are
declared in `src/api_reference.md`). -/
structure ResourceBudget where
  gpuTotal : Nat
  cpuTotal : Nat
  gpuAlloc : Nat
  cpuAlloc : Nat
deriving DecidableEq, Repr

/-- Modelled from the spec: scheduler state — the shared budget, the
queue of waiting requirements, and the reservations held by the
currently Running tasks. -/
structure SchedState where
  budget : ResourceBudget
  queue : List ResourceReq
  running : List ResourceReq
deriving DecidableEq, Repr

/-- Admission test: the budget has sufficient free GPU and CPU units. -/
def fits (b : ResourceBudget) (r : ResourceReq) : Bool :=
  decide (b.gpuAlloc + r.gpu_units ≤ b.gpuTotal) &&
    decide (b.cpuAlloc + r.cpu_units ≤ b.cpuTotal)

/-- Modelled from the spec: `admit` reserves atomically and dispatches
when the requirement fits; otherwise the task is enqueued and waits
(ResourceExhaustion is not an error). -/
def admitTask (st : SchedState) (r : ResourceReq) : SchedState :=
  if fits st.budget r then
    { st with
      budget := { st.budget with
        gpuAlloc := st.budget.gpuAlloc + r.gpu_units,
        cpuAlloc := st.budget.cpuAlloc + r.cpu_units },
      running := r :: st.running }
  else
    { st with queue := st.queue ++ [r] }

/-- Modelled from the spec: a terminal Task outcome releases the
reservation of one Running task exactly once. -/
def release (st : SchedState) (r : ResourceReq) : SchedState :=
  if st.running.contains r then
    { st with
      budget := { st.budget with
        gpuAlloc := st.budget.gpuAlloc - r.gpu_units,
        cpuAlloc := st.budget.cpuAlloc - r.cpu_units },
      running := st.running.erase r }
  else st

/-- Modelled from the spec: `update_gpu_settings` atomically replaces
the total GPU capacity; it touches neither the allocations nor the
running tasks (a reduction below the allocated amount is accepted and
enforced lazily). -/
def update_gpu_settings (st : SchedState) (newTotal : Nat) : SchedState :=
  { st with budget := { st.budget with gpuTotal := newTotal } }

/-- Modelled from the spec: `update_cpu_settings`, the CPU analogue. -/
def update_cpu_settings (st : SchedState) (newTotal : Nat) : SchedState :=
  { st with budget := { st.budget with cpuTotal := newTotal } }

/-- GPU units held by a list of running tasks. -/
def gpuUsed (l : List ResourceReq) : Nat :=
  (l.map ResourceReq.gpu_units).sum

/-- CPU units held by a list of running tasks. -/
def cpuUsed (l : List ResourceReq) : Nat :=
  (l.map ResourceReq.cpu_units).sum

/-- System states reachable from an empty scheduler by admissions,
releases and capacity updates. -/
inductive Reachable : SchedState → Prop
  | init (g c : Nat) : Reachable ⟨⟨g, c, 0, 0⟩, [], []⟩
  | admitStep (st : SchedState) (r : ResourceReq) :
      Reachable st → Reachable (admitTask st r)
  | release (st : SchedState) (r : ResourceReq) :
      Reachable st → Reachable (release st r)
  | resizeGpu (st : SchedState) (n : Nat) :
      Reachable st → Reachable (update_gpu_settings st n)
  | resizeCpu (st : SchedState) (n : Nat) :
      Reachable st → Reachable (update_cpu_settings st n)

/-- States reachable at fixed capacity: admissions and releases only. -/
inductive ReachableFixed : SchedState → Prop
  | init (g c : Nat) : ReachableFixed ⟨⟨g, c, 0, 0⟩, [], []⟩
  | admitStep (st : SchedState) (r : ResourceReq) :
      ReachableFixed st → ReachableFixed (admitTask st r)
  | release (st : SchedState) (r : ResourceReq) :
      ReachableFixed st → ReachableFixed (release st r)

/-- C2 counterexample: with capacity updates among the system
operations (spec §4.2 accepts reductions below the allocated amount),
a state whose Running tasks hold more GPU units than the recorded total
is reachable — GPU total 4, admitTask a 3-unit task, lower the total to 2. -/
theorem C2_counterexample :
    Reachable ⟨⟨2, 4, 3, 0⟩, [], [⟨3, 0⟩]⟩ ∧
      ¬ gpuUsed [(⟨3, 0⟩ : ResourceReq)] ≤ (2 : Nat) := by
  constructor
  · have h0 := Reachable.init 4 4
    have h1 := Reachable.admitStep _ ⟨3, 0⟩ h0
    have h2 := Reachable.resizeGpu _ 2 h1
    have he : update_gpu_settings (admitTask ⟨⟨4, 4, 0, 0⟩, [], []⟩ ⟨3, 0⟩) 2 =
        ⟨⟨2, 4, 3, 0⟩, [], [⟨3, 0⟩]⟩ := by decide
    exact he ▸ h2
  · decide

/-- C2 amended: at fixed capacity — in every state reachable through
admissions and releases alone — the units held by Running tasks equal
the recorded allocation and stay within the totals for both resource
kinds; both operations preserve the invariant. -/
theorem C2_budget_invariant (st : SchedState) (h : ReachableFixed st) :
    gpuUsed st.running = st.budget.gpuAlloc ∧
      cpuUsed st.running = st.budget.cpuAlloc ∧
      st.budget.gpuAlloc ≤ st.budget.gpuTotal ∧
      st.budget.cpuAlloc ≤ st.budget.cpuTotal := by
  induction h with
  | init g c => simp [gpuUsed, cpuUsed]
  | admitStep st r hst ih =>
    obtain ⟨ihg, ihc, ihgt, ihct⟩ := ih
    by_cases hf : fits st.budget r = true
    · have hgle : st.budget.gpuAlloc + r.gpu_units ≤ st.budget.gpuTotal := by
        have hb := hf
        unfold fits at hb
        have h1 := (Bool.and_eq_true _ _).mp hb
        exact of_decide_eq_true h1.1
      have hcle : st.budget.cpuAlloc + r.cpu_units ≤ st.budget.cpuTotal := by
        have hb := hf
        unfold fits at hb
        have h1 := (Bool.and_eq_true _ _).mp hb
        exact of_decide_eq_true h1.2
      have hadm : admitTask st r = { st with
          budget := { st.budget with
            gpuAlloc := st.budget.gpuAlloc + r.gpu_units,
            cpuAlloc := st.budget.cpuAlloc + r.cpu_units },
          running := r :: st.running } := by
        unfold admitTask
        rw [if_pos hf]
      rw [hadm]
      dsimp only
      have hg2 : gpuUsed (r :: st.running) = r.gpu_units + gpuUsed st.running := by
        simp [gpuUsed]
      have hc2 : cpuUsed (r :: st.running) = r.cpu_units + cpuUsed st.running := by
        simp [cpuUsed]
      refine ⟨by omega, by omega, by omega, by omega⟩
    · have hadm : admitTask st r = { st with queue := st.queue ++ [r] } := by
        unfold admitTask
        rw [if_neg hf]
      rw [hadm]
      exact ⟨ihg, ihc, ihgt, ihct⟩
  | release st r hst ih =>
    obtain ⟨ihg, ihc, ihgt, ihct⟩ := ih
    by_cases hm : st.running.contains r = true
    · have hmem : r ∈ st.running := by simpa using hm
      have hperm : st.running.Perm (r :: st.running.erase r) :=
        List.perm_cons_erase hmem
      have hgsum : gpuUsed st.running = r.gpu_units + gpuUsed (st.running.erase r) := by
        unfold gpuUsed
        rw [(hperm.map ResourceReq.gpu_units).sum_eq]
        simp
      have hcsum : cpuUsed st.running = r.cpu_units + cpuUsed (st.running.erase r) := by
        unfold cpuUsed
        rw [(hperm.map ResourceReq.cpu_units).sum_eq]
        simp
      have hrel : release st r = { st with
          budget := { st.budget with
            gpuAlloc := st.budget.gpuAlloc - r.gpu_units,
            cpuAlloc := st.budget.cpuAlloc - r.cpu_units },
          running := st.running.erase r } := by
        unfold release
        rw [if_pos hm]
      rw [hrel]
      dsimp only
      refine ⟨by omega, by omega, by omega, by omega⟩
    · have hrel : release st r = st := by
        unfold release
        rw [if_neg hm]
      rw [hrel]
      exact ⟨ihg, ihc, ihgt, ihct⟩

/-- Witness for the amended C2 at a concrete reachable state: GPU total
4, one admitted task holding 3 GPU units. -/
theorem C2_budget_invariant_witness :
    gpuUsed (admitTask ⟨⟨4, 4, 0, 0⟩, [], []⟩ ⟨3, 0⟩).running =
        (admitTask ⟨⟨4, 4, 0, 0⟩, [], []⟩ ⟨3, 0⟩).budget.gpuAlloc ∧
      cpuUsed (admitTask ⟨⟨4, 4, 0, 0⟩, [], []⟩ ⟨3, 0⟩).running =
        (admitTask ⟨⟨4, 4, 0, 0⟩, [], []⟩ ⟨3, 0⟩).budget.cpuAlloc ∧
      (admitTask ⟨⟨4, 4, 0, 0⟩, [], []⟩ ⟨3, 0⟩).budget.gpuAlloc ≤
        (admitTask ⟨⟨4, 4, 0, 0⟩, [], []⟩ ⟨3, 0⟩).budget.gpuTotal ∧
      (admitTask ⟨⟨4, 4, 0, 0⟩, [], []⟩ ⟨3, 0⟩).budget.cpuAlloc ≤
        (admitTask ⟨⟨4, 4, 0, 0⟩, [], []⟩ ⟨3, 0⟩).budget.cpuTotal :=
  C2_budget_invariant _ (ReachableFixed.admitStep _ ⟨3, 0⟩ (ReachableFixed.init 4 4))

/-- C8: lowering the GPU (resp. CPU) total below the allocated amount
records the new total immediately, kills no Running task and revokes no
reservation; and in any subsequent state whose allocation still exceeds
what the total leaves room for, admission is rejected and the task
stays queued — so admissions resume only once releases bring the usage
back under the new total. -/
theorem C8_lazy_capacity_reduction (st : SchedState) (n : Nat)
    (hlow : n < st.budget.gpuAlloc) :
    (update_gpu_settings st n).budget.gpuTotal = n ∧
      (update_gpu_settings st n).running = st.running ∧
      (update_gpu_settings st n).budget.gpuAlloc = st.budget.gpuAlloc ∧
      (update_cpu_settings st n).budget.cpuTotal = n ∧
      (update_cpu_settings st n).running = st.running ∧
      (∀ r : ResourceReq, fits (update_gpu_settings st n).budget r = false ∧
        admitTask (update_gpu_settings st n) r =
          { update_gpu_settings st n with queue := st.queue ++ [r] }) ∧
      (∀ st' : SchedState, ∀ r : ResourceReq,
        st'.budget.gpuTotal < st'.budget.gpuAlloc + r.gpu_units →
        fits st'.budget r = false ∧
          admitTask st' r = { st' with queue := st'.queue ++ [r] }) := by
  have hfitsGen : ∀ st' : SchedState, ∀ r : ResourceReq,
      st'.budget.gpuTotal < st'.budget.gpuAlloc + r.gpu_units →
      fits st'.budget r = false := by
    intro st' r h
    unfold fits
    have hd : decide (st'.budget.gpuAlloc + r.gpu_units ≤ st'.budget.gpuTotal) = false :=
      decide_eq_false (by omega)
    rw [hd, Bool.false_and]
  have hadmGen : ∀ (st' : SchedState) (r : ResourceReq),
      fits st'.budget r = false →
      admitTask st' r = { st' with queue := st'.queue ++ [r] } := by
    intro st' r h
    unfold admitTask
    rw [if_neg]
    rw [h]
    exact Bool.false_ne_true
  refine ⟨rfl, rfl, rfl, rfl, rfl, ?_, ?_⟩
  · intro r
    have hf := hfitsGen (update_gpu_settings st n) r (by
      show n < st.budget.gpuAlloc + r.gpu_units
      omega)
    exact ⟨hf, hadmGen _ r hf⟩
  · intro st' r h
    have hf := hfitsGen st' r h
    exact ⟨hf, hadmGen _ r hf⟩

/-- Witness for C8: GPU total 4 with 3 units allocated, lowered to 2;
the new total is recorded, the running task survives, and a 1-unit
admission is rejected into the queue. -/
theorem C8_lazy_capacity_reduction_witness :
    (update_gpu_settings ⟨⟨4, 4, 3, 0⟩, [], [⟨3, 0⟩]⟩ 2).budget.gpuTotal = 2 ∧
      (update_gpu_settings ⟨⟨4, 4, 3, 0⟩, [], [⟨3, 0⟩]⟩ 2).running = [⟨3, 0⟩] ∧
      fits (update_gpu_settings ⟨⟨4, 4, 3, 0⟩, [], [⟨3, 0⟩]⟩ 2).budget ⟨1, 0⟩ = false :=
  have h := C8_lazy_capacity_reduction ⟨⟨4, 4, 3, 0⟩, [], [⟨3, 0⟩]⟩ 2 (by decide)
  ⟨h.1, h.2.1, (h.2.2.2.2.2.1 ⟨1, 0⟩).1⟩

/-! ## Orchestrator pause and resume (modelled from the spec) -/

/-- Modelled from the spec: per-project orchestration state (the
orchestrator body is not in `src/`) — the stage graph, the names of
stages having reached an accepted terminal state, the in-flight Tasks,
the pause flag suppressing emission, and the project status. -/
structure OrchState where
  stages : List Stage
  succeededStages : List String
  inFlight : List TaskRec
  pausedFlag : Bool
  status : ProjectStatus
deriving DecidableEq, Repr

/-- Stage names that currently have an in-flight Task. -/
def inFlightNames (st : OrchState) : List String :=
  st.inFlight.map TaskRec.stage

/-- Stages still pending emission: all prerequisites satisfied, not yet
succeeded, and no Task currently in flight for them. -/
def pendingReady (st : OrchState) : List Stage :=
  st.stages.filter (fun s =>
    s.deps.all st.succeededStages.contains &&
      !st.succeededStages.contains s.name &&
      !(inFlightNames st).contains s.name)

/-- Modelled from the spec: Task emission — suppressed while the pause
flag is set, otherwise one new Task per pending ready stage. -/
def emitReady (st : OrchState) : OrchState :=
  if st.pausedFlag then st
  else
    { st with
      inFlight := st.inFlight ++
        (pendingReady st).map (fun s => ⟨s.name, s.role, .pending⟩) }

/-- Modelled from the spec: `pause` sets the suppression flag and the
Paused status; in-flight Tasks are not interrupted. -/
def pause (st : OrchState) : OrchState :=
  { st with pausedFlag := true, status := .paused }

/-- Modelled from the spec: `resume` clears the flag, sets Running and
re-emits Tasks for exactly the stages still pending at that moment. -/
def resume (st : OrchState) : OrchState :=
  emitReady { st with pausedFlag := false, status := .running }

/-- C3: pausing leaves every in-flight Task untouched and suppresses
emission entirely; resuming emits Tasks for exactly the stages still
pending at that moment, and no stage that has already succeeded (nor
one already in flight) is ever emitted again. -/
theorem C3_pause_resume_exact (st : OrchState) :
    (pause st).inFlight = st.inFlight ∧
      (pause st).status = ProjectStatus.paused ∧
      emitReady (pause st) = pause st ∧
      (resume st).inFlight =
        st.inFlight ++ (pendingReady st).map (fun s => ⟨s.name, s.role, .pending⟩) ∧
      (resume st).status = ProjectStatus.running ∧
      (∀ s ∈ pendingReady st,
        s.name ∉ st.succeededStages ∧ s.name ∉ inFlightNames st) := by
  refine ⟨rfl, rfl, rfl, rfl, rfl, ?_⟩
  intro s hs
  obtain ⟨_, hcond⟩ := List.mem_filter.mp hs
  have h2 : (!st.succeededStages.contains s.name) = true := by
    revert hcond
    cases st.succeededStages.contains s.name <;>
      cases (inFlightNames st).contains s.name <;>
        cases s.deps.all st.succeededStages.contains <;> simp
  have h3 : (!(inFlightNames st).contains s.name) = true := by
    revert hcond
    cases st.succeededStages.contains s.name <;>
      cases (inFlightNames st).contains s.name <;>
        cases s.deps.all st.succeededStages.contains <;> simp
  constructor
  · intro hmem
    simp at h2
    exact h2 hmem
  · intro hmem
    simp at h3
    exact h3 hmem

/-- Witness for C3: one succeeded stage a, pending stage b with dep a;
resume emits exactly b, and b is neither succeeded nor in flight. -/
theorem C3_pause_resume_exact_witness :
    (pause ⟨[⟨"a", "r", 300, []⟩, ⟨"b", "r", 300, ["a"]⟩], ["a"], [], false,
        ProjectStatus.running⟩).inFlight = [] ∧
      (⟨"b", "r", 300, ["a"]⟩ : Stage).name ∉
          (⟨[⟨"a", "r", 300, []⟩, ⟨"b", "r", 300, ["a"]⟩], ["a"], [], false,
            ProjectStatus.running⟩ : OrchState).succeededStages :=
  ⟨(C3_pause_resume_exact ⟨[⟨"a", "r", 300, []⟩, ⟨"b", "r", 300, ["a"]⟩], ["a"], [],
      false, ProjectStatus.running⟩).1,
   ((C3_pause_resume_exact ⟨[⟨"a", "r", 300, []⟩, ⟨"b", "r", 300, ["a"]⟩], ["a"], [],
      false, ProjectStatus.running⟩).2.2.2.2.2 ⟨"b", "r", 300, ["a"]⟩ (by decide)).1⟩

/-! ## Retry policy (modelled from the spec) -/

/-- Modelled from the spec: per-stage retry bookkeeping — retries used
so far, the backoff delay of the most recently scheduled retry, the
stage's Task status and the project status. -/
structure RetryState where
  retry_count : Nat
  lastDelay : Option Nat
  stageStatus : TaskStatus
  projStatus : ProjectStatus
deriving DecidableEq, Repr

/-- Modelled from the spec: the retry budget — three retries per stage
(spec §8 scenario 2 lists retries 1..3). -/
def maxRetries : Nat := 3

/-- Modelled from the spec: exponential backoff, base 5 seconds,
doubling with each retry already used. -/
def backoffDelay (usedRetries : Nat) : Nat := 5 * 2 ^ usedRetries

/-- Modelled from the spec: handling a Task failure or timeout of one
stage — while retries remain, a retry is scheduled with exponential
backoff; once the budget is exhausted the stage is Failed and a fatal
stage fails the project. -/
def onStageFailure (fatal : Bool) (st : RetryState) : RetryState :=
  if st.retry_count < maxRetries then
    { st with
      retry_count := st.retry_count + 1,
      lastDelay := some (backoffDelay st.retry_count),
      stageStatus := .pending }
  else
    { st with
      stageStatus := .failedT,
      projStatus := if fatal then .failed else st.projStatus }

/-- Fresh bookkeeping for a running stage. -/
def retryInit : RetryState := ⟨0, none, .runningT, .running⟩

/-- Bookkeeping after `n` consecutive failures of a fatal stage. -/
def afterFailures (n : Nat) : RetryState :=
  (onStageFailure true)^[n] retryInit

/-- C4 counterexample: after the 3rd failure the stage is not Failed —
the third retry is scheduled with the 20 s backoff delay instead; the
claim's cut-off of three failures contradicts its own delay list. -/
theorem C4_counterexample :
    (afterFailures 3).stageStatus ≠ TaskStatus.failedT ∧
      (afterFailures 3).lastDelay = some 20 := by
  decide

/-- C4 amended: each failure with retries remaining schedules a retry
with delay 5·2^(retries used): 5 s, 10 s, 20 s; once the three retries
are exhausted — on the 4th failure — the stage becomes Failed and a
fatal stage fails the project. -/
theorem C4_retry_policy (fatal : Bool) (st : RetryState) :
    (st.retry_count < maxRetries →
      (onStageFailure fatal st).lastDelay = some (5 * 2 ^ st.retry_count) ∧
        (onStageFailure fatal st).stageStatus ≠ TaskStatus.failedT) ∧
      (maxRetries ≤ st.retry_count →
        (onStageFailure fatal st).stageStatus = TaskStatus.failedT ∧
          (fatal = true → (onStageFailure fatal st).projStatus = ProjectStatus.failed)) ∧
      (afterFailures 1).lastDelay = some 5 ∧
      (afterFailures 2).lastDelay = some 10 ∧
      (afterFailures 3).lastDelay = some 20 ∧
      (afterFailures 4).stageStatus = TaskStatus.failedT ∧
      (afterFailures 4).projStatus = ProjectStatus.failed := by
  refine ⟨?_, ?_, by decide, by decide, by decide, by decide, by decide⟩
  · intro h
    unfold onStageFailure
    rw [if_pos h]
    exact ⟨rfl, by simp [backoffDelay]⟩
  · intro h
    unfold onStageFailure
    rw [if_neg (by omega)]
    refine ⟨rfl, ?_⟩
    intro hf
    simp [hf]

/-- Witness for C4: from a fresh stage the first failure schedules the
5 s retry, and a stage with its three retries used becomes Failed. -/
theorem C4_retry_policy_witness :
    (onStageFailure true retryInit).lastDelay = some (5 * 2 ^ (0 : Nat)) ∧
      (onStageFailure true (afterFailures 3)).stageStatus = TaskStatus.failedT :=
  ⟨((C4_retry_policy true retryInit).1 (by decide)).1,
   ((C4_retry_policy true (afterFailures 3)).2.1 (by decide)).1⟩

/-! ## Project registry (modelled from the spec) -/

/-- Immutable status snapshot served by `get_project_status`
(`src/api_reference.md` declares the query; its body is not in
`src/`). -/
structure StatusSnapshot where
  status : ProjectStatus
  current_stage : String
  progress : Nat
  current_task : String
  errors : List String
deriving DecidableEq, Repr

/-- A project record owned by the registry. -/
structure ProjectRecord where
  id : String
  status : ProjectStatus
  current_stage : String
  progress : Nat
  current_task : String
  errors : List String
deriving DecidableEq, Repr

/-- Modelled from the spec: the Project Registry owning the records. -/
structure Registry where
  projects : List ProjectRecord
deriving DecidableEq, Repr

/-- Modelled from the spec: `get_project_status` returns a snapshot of
the addressed project and hands the registry back exactly as it was —
the query mutates nothing. -/
def get_project_status (reg : Registry) (pid : String) :
    Option StatusSnapshot × Registry :=
  (match reg.projects.find? (fun p => p.id == pid) with
    | some p => some ⟨p.status, p.current_stage, p.progress, p.current_task, p.errors⟩
    | none => none,
   reg)

/-- The six project lifecycle states of the spec. -/
def allStatuses : List ProjectStatus :=
  [.initializing, .running, .paused, .completed, .failed, .cancelled]

/-- C7: `get_project_status` never mutates the registry, and every
snapshot it returns carries one of the six lifecycle statuses. -/
theorem C7_status_query (reg : Registry) (pid : String) :
    (get_project_status reg pid).2 = reg ∧
      ∀ snap : StatusSnapshot, (get_project_status reg pid).1 = some snap →
        snap.status ∈ allStatuses := by
  constructor
  · rfl
  · intro snap _
    cases snap.status <;> decide

/-- Witness for C7 on a one-project registry. -/
theorem C7_status_query_witness :
    (get_project_status ⟨[⟨"p1", ProjectStatus.running, "s", 50, "t", []⟩]⟩ "p1").2 =
        ⟨[⟨"p1", ProjectStatus.running, "s", 50, "t", []⟩]⟩ ∧
      (⟨ProjectStatus.running, "s", 50, "t", []⟩ : StatusSnapshot).status ∈ allStatuses :=
  ⟨(C7_status_query ⟨[⟨"p1", ProjectStatus.running, "s", 50, "t", []⟩]⟩ "p1").1,
   (C7_status_query ⟨[⟨"p1", ProjectStatus.running, "s", 50, "t", []⟩]⟩ "p1").2
     ⟨ProjectStatus.running, "s", 50, "t", []⟩ (by decide)⟩

end MovieGen
